import Mathlib

/-!
Verification development for the repository-tools layer of an Azure DevOps
MCP server (`src/tools/repositories.ts` and companions).

The TypeScript source is shallowly embedded: each handler's pure
query-translation / paging / projection logic becomes a Lean function over
explicit inputs (the backend fetch results and identity lookups are passed
in as arguments), JavaScript `number` parameters become `Int`,
optional/undefined values become `Option`, and JavaScript truthiness tests
(`if (x)`) are modelled by explicit truthiness functions.  `String.prototype.localeCompare`
is modelled as codepoint-lexicographic comparison.  `Array.prototype.sort`
(stability required by ECMAScript 2019) is modelled by `List.insertionSort`
for the branch, thread and comment comparators, which are consistent
comparison functions, so the stable sorted permutation is unique.  The
repository comparator `(a, b) => a.name?.localeCompare(b.name ?? "") ?? 0`
is NOT consistent when a missing-name repository meets a nonempty-named
one (it returns 0 one way and 1 the other), and ECMAScript then leaves the
sort order implementation-defined; the repository sort is therefore
modelled by an arbitrary implementation satisfying the ECMAScript contract
`IsJsStableSortFor` (permutation always; sorted and stable whenever the
comparator is consistent on the elements).
-/

namespace AdoMcp

/-- Truthiness of an optional JavaScript string: `undefined` and `""` are falsy. -/
def jsTruthyStr : Option String → Bool
  | none => false
  | some s => !(s == "")

/-- Truthiness of an optional JavaScript number: `undefined` and `0` are falsy. -/
def jsTruthyInt : Option Int → Bool
  | none => false
  | some n => !(n == 0)

/-- Truthiness of an optional JavaScript boolean: `undefined` and `false` are falsy. -/
def jsTruthyBool : Option Bool → Bool
  | none => false
  | some b => b

/-- ECMAScript relative-index resolution used by `Array.prototype.slice`:
a negative index counts from the end (clamped at 0), a nonnegative index is
clamped at the length. -/
def jsSliceIndex (len : Nat) (i : Int) : Nat :=
  if i < 0 then ((len : Int) + i).toNat else min i.toNat len

/-- ECMAScript `Array.prototype.slice(start, stop)` on a list. -/
def jsSlice (l : List α) (start stop : Int) : List α :=
  (l.drop (jsSliceIndex l.length start)).take
    (jsSliceIndex l.length stop - jsSliceIndex l.length start)

/-- Local paging stage shared by the repository, thread and comment handlers:
`collection.slice(skip, skip + top)` (lines 116, 326 and 369 of the source). -/
def localPage (l : List α) (skip top : Int) : List α :=
  jsSlice l skip (skip + top)

/-- JavaScript `String.prototype.localeCompare`, modelled as
codepoint-lexicographic three-way comparison (computed on the character
lists, which coincides with the string order). -/
def localeCompare (a b : String) : Int :=
  if a.data < b.data then -1 else if a.data = b.data then 0 else 1

theorem localeCompare_le_iff (a b : String) : localeCompare a b ≤ 0 ↔ a ≤ b := by
  unfold localeCompare
  split_ifs with h1 h2
  · simp only [show ((-1 : Int) ≤ 0) from by norm_num, true_iff]
    exact le_of_lt (String.lt_iff_toList_lt.mpr h1)
  · simp only [le_refl, true_iff]
    exact le_of_eq (String.ext h2)
  · constructor
    · intro h; norm_num at h
    · intro h
      rcases lt_or_eq_of_le h with h' | h'
      · exact absurd (String.lt_iff_toList_lt.mp h') h1
      · exact absurd (congrArg String.data h') h2

theorem localeCompare_self (x : String) : localeCompare x x = 0 := by
  unfold localeCompare
  rw [if_neg (lt_irrefl x.data), if_pos rfl]

theorem localeCompare_eq_zero_iff (x y : String) : localeCompare x y = 0 ↔ x = y := by
  unfold localeCompare
  split_ifs with h1 h2
  · constructor
    · intro h; norm_num at h
    · intro h; subst h; exact absurd h1 (lt_irrefl x.data)
  · exact iff_of_true rfl (String.ext h2)
  · constructor
    · intro h; norm_num at h
    · intro h; subst h; exact absurd rfl h2

theorem localeCompare_lt_zero_iff (x y : String) : localeCompare x y < 0 ↔ x < y := by
  unfold localeCompare
  split_ifs with h1 h2
  · exact iff_of_true (by norm_num) (String.lt_iff_toList_lt.mpr h1)
  · constructor
    · intro h; norm_num at h
    · intro h
      have hxy := String.ext h2
      subst hxy
      exact absurd h (lt_irrefl x)
  · constructor
    · intro h; norm_num at h
    · intro h; exact absurd (String.lt_iff_toList_lt.mp h) h1

theorem localeCompare_pos_iff (x y : String) : 0 < localeCompare x y ↔ y < x := by
  unfold localeCompare
  split_ifs with h1 h2
  · constructor
    · intro h; norm_num at h
    · intro h
      exact absurd (String.lt_iff_toList_lt.mp (h.trans (String.lt_iff_toList_lt.mpr h1)))
        (lt_irrefl _)
  · constructor
    · intro h; norm_num at h
    · intro h
      have hxy := String.ext h2
      subst hxy
      exact absurd h (lt_irrefl x)
  · refine iff_of_true (by norm_num) ?_
    rcases lt_trichotomy x y with h | h | h
    · exact absurd (String.lt_iff_toList_lt.mp h) h1
    · exact absurd (congrArg String.data h) h2
    · exact h

/-- JavaScript `String.prototype.replace` with a plain-string pattern:
replaces only the first occurrence of `pat` (char-list worker). -/
def replaceFirstAux (pat repl : List Char) : List Char → List Char
  | [] => if pat = [] then repl else []
  | c :: rest =>
    if pat.isPrefixOf (c :: rest) then repl ++ (c :: rest).drop pat.length
    else c :: replaceFirstAux pat repl rest

/-- JavaScript `s.replace(pat, repl)` for string patterns (first occurrence only). -/
def jsReplaceFirst (s pat repl : String) : String :=
  ⟨replaceFirstAux pat.data repl.data s.data⟩

/-- JavaScript `s.startsWith(p)`: codepoint-level leading-substring test. -/
def jsStartsWith (s p : String) : Bool :=
  p.data.isPrefixOf s.data

/-- Substring containment on char lists (worker for `jsIncludes`). -/
def hasSubstring (pat : List Char) : List Char → Bool
  | [] => pat.isEmpty
  | c :: rest => pat.isPrefixOf (c :: rest) || hasSubstring pat rest

/-- JavaScript `s.includes(pat)`. -/
def jsIncludes (s pat : String) : Bool :=
  hasSubstring pat.data s.data

/-- JavaScript `charAt(0).toUpperCase() + s.slice(1)`. -/
def jsCapitalize (s : String) : String :=
  match s.data with
  | [] => ""
  | c :: cs => ⟨c.toUpper :: cs⟩

/-- Outcome of one tool handler invocation: a successful payload, an
error-flagged response envelope (`isError: true` with a message), or an
error thrown out of the handler (uncaught by any try/catch in the handler). -/
inductive ToolOutcome (α : Type) where
  | success : α → ToolOutcome α
  | errorEnvelope : String → ToolOutcome α
  | thrown : String → ToolOutcome α
deriving DecidableEq

/-! ### Backend entity shapes (only the fields the source reads are modelled) -/

/-- Backend `GitRef`; the handlers only read `name`. -/
structure GitRef where
  name : Option String
deriving DecidableEq

/-- Backend `GitRepository`, restricted to the fields the handlers read. -/
structure GitRepository where
  id : Option String
  name : Option String
  isDisabled : Option Bool
  isFork : Option Bool
  isInMaintenance : Option Bool
  webUrl : Option String
  size : Option Int
deriving DecidableEq

/-- Backend comment author identity reference. -/
structure IdentityRef where
  displayName : Option String
  uniqueName : Option String
deriving DecidableEq

/-- Backend `Comment`, restricted to the fields the handlers read. -/
structure Comment where
  id : Option Int
  author : Option IdentityRef
  content : Option String
  publishedDate : Option String
  lastUpdatedDate : Option String
  lastContentUpdatedDate : Option String
  isDeleted : Option Bool
deriving DecidableEq

/-- Position in a file (`CommentPosition`): line and offset. -/
structure CommentPosition where
  line : Int
  offset : Int
deriving DecidableEq

/-- Backend `CommentThreadContext`: file path plus optional spans on the
left (old file) and right (new file) sides of the diff. -/
structure CommentThreadContext where
  filePath : String
  leftFileStart : Option CommentPosition
  leftFileEnd : Option CommentPosition
  rightFileStart : Option CommentPosition
  rightFileEnd : Option CommentPosition
deriving DecidableEq

/-- Backend `CommentThread`, restricted to the fields the handlers read.
`status` holds the numeric `CommentThreadStatus` enum value. -/
structure CommentThread where
  id : Option Int
  publishedDate : Option String
  lastUpdatedDate : Option String
  status : Option Int
  threadContext : Option CommentThreadContext
  comments : List Comment
deriving DecidableEq

/-! ### Projected (trimmed) shapes -/

/-- Trimmed author object produced by `trimComments`. -/
structure TrimmedAuthor where
  displayName : Option String
  uniqueName : Option String
deriving DecidableEq

/-- Trimmed comment object produced by `trimComments`. -/
structure TrimmedComment where
  id : Option Int
  author : TrimmedAuthor
  content : Option String
  publishedDate : Option String
  lastUpdatedDate : Option String
  lastContentUpdatedDate : Option String
deriving DecidableEq

/-- Trimmed thread object produced by the `list_pull_request_threads` handler. -/
structure TrimmedThread where
  id : Option Int
  publishedDate : Option String
  lastUpdatedDate : Option String
  status : Option Int
  threadContext : Option CommentThreadContext
  comments : List TrimmedComment
deriving DecidableEq

/-- Trimmed repository object produced by the `list_repos_by_project` handler. -/
structure TrimmedRepository where
  id : Option String
  name : Option String
  isDisabled : Option Bool
  isFork : Option Bool
  isInMaintenance : Option Bool
  webUrl : Option String
  size : Option Int
deriving DecidableEq

/-! ### Projection functions -/

/-- Projection of one comment performed inside `trimComments`
(`comment.author?.displayName` etc.). -/
def trimOneComment (c : Comment) : TrimmedComment :=
  { id := c.id
    author :=
      { displayName := c.author.bind IdentityRef.displayName
        uniqueName := c.author.bind IdentityRef.uniqueName }
    content := c.content
    publishedDate := c.publishedDate
    lastUpdatedDate := c.lastUpdatedDate
    lastContentUpdatedDate := c.lastContentUpdatedDate }

/-- Source `trimComments` (lines 56-70): drop comments whose `isDeleted`
flag is truthy, then project each survivor to the essential fields. -/
def trimComments (comments : List Comment) : List TrimmedComment :=
  (comments.filter fun c => !(jsTruthyBool c.isDeleted)).map trimOneComment

/-- Projection of one thread performed by the `list_pull_request_threads`
handler's trimmed path (lines 335-342). -/
def trimOneThread (t : CommentThread) : TrimmedThread :=
  { id := t.id
    publishedDate := t.publishedDate
    lastUpdatedDate := t.lastUpdatedDate
    status := t.status
    threadContext := t.threadContext
    comments := trimComments t.comments }

/-- Projection of one repository performed by the `list_repos_by_project`
handler (lines 119-127). -/
def trimOneRepository (r : GitRepository) : TrimmedRepository :=
  { id := r.id
    name := r.name
    isDisabled := r.isDisabled
    isFork := r.isFork
    isInMaintenance := r.isInMaintenance
    webUrl := r.webUrl
    size := r.size }

/-! ### Sort comparators

Each JavaScript comparator `cmp` passed to `Array.prototype.sort` is
embedded as the relation `fun a b => cmp a b ≤ 0`; the sort itself as
`List.insertionSort`, the canonical stable sort. -/

/-- Comparator of the repository sort (line 116):
`(a, b) => a.name?.localeCompare(b.name ?? "") ?? 0`. -/
def repoCompare (a b : GitRepository) : Int :=
  match a.name with
  | none => 0
  | some na => localeCompare na (b.name.getD "")

/-- Sort relation induced by `repoCompare`. -/
def repoLe (a b : GitRepository) : Prop := repoCompare a b ≤ 0

/-- Comparator key of the repository sort: the name with a missing name
coalesced to the empty string. -/
def repoNameKey (r : GitRepository) : String := r.name.getD ""

theorem empty_le_string (s : String) : "" ≤ s := by
  rw [String.le_iff_toList_le]
  simp [String.toList]

theorem eq_empty_of_le_empty {s : String} (h : s ≤ "") : s = "" :=
  le_antisymm h (empty_le_string s)

theorem repoLe_iff_key (a b : GitRepository) : repoLe a b ↔ repoNameKey a ≤ repoNameKey b := by
  unfold repoLe repoCompare repoNameKey
  cases a.name with
  | none => exact iff_of_true le_rfl (empty_le_string _)
  | some na => exact localeCompare_le_iff na (b.name.getD "")

instance : DecidableRel repoLe := fun a b =>
  inferInstanceAs (Decidable (repoCompare a b ≤ 0))

instance : IsTotal GitRepository repoLe :=
  ⟨fun a b => by
    rw [repoLe_iff_key, repoLe_iff_key]
    exact le_total (repoNameKey a) (repoNameKey b)⟩

instance : IsTrans GitRepository repoLe :=
  ⟨fun a b c hab hbc => by
    rw [repoLe_iff_key] at *
    exact le_trans hab hbc⟩

/-- ECMAScript "consistent comparison function" check for a three-way
comparator on the elements of a concrete array: for every pair the results
are sign-symmetric, and the induced `cmp ≤ 0` relation is transitive. -/
def consistentCompOn (cmp : α → α → Int) (l : List α) : Bool :=
  (l.all fun a => l.all fun b =>
    (decide (cmp a b = 0) == decide (cmp b a = 0)) &&
    (decide (cmp a b < 0) == decide (0 < cmp b a))) &&
  (l.all fun a => l.all fun b => l.all fun c =>
    !(decide (cmp a b ≤ 0)) || !(decide (cmp b c ≤ 0)) || decide (cmp a c ≤ 0))

/-- ECMAScript contract of `Array.prototype.sort(cmp)` (ES2019): the result
is always a permutation of the input; whenever `cmp` is a consistent
comparison function for the elements, the result is additionally sorted
according to `cmp` and the sort is stable (every `cmp`-tie class keeps its
original relative order).  With an inconsistent comparator the order is
implementation-defined, so nothing further is guaranteed. -/
def IsJsStableSortFor (cmp : α → α → Int) (sortImpl : List α → List α) : Prop :=
  ∀ l, (sortImpl l).Perm l ∧
    (consistentCompOn cmp l = true →
      List.Sorted (fun a b => cmp a b ≤ 0) (sortImpl l) ∧
      ∀ p : α → Bool, (∀ a b, p a = true → p b = true → cmp a b = 0) →
        (sortImpl l).filter p = l.filter p)

/-- One ECMAScript-compliant implementation of the repository sort: sort
(stably) when the comparator is consistent on the input, and use the
implementation-defined freedom to leave the array unchanged otherwise. -/
def sortReposIfConsistent (l : List GitRepository) : List GitRepository :=
  if consistentCompOn repoCompare l then List.insertionSort repoLe l else l

/-- Comparator of the branch short-name sort (line 47):
`(a, b) => b.localeCompare(a)` (descending). -/
def branchDesc (a b : String) : Prop := localeCompare b a ≤ 0

theorem branchDesc_iff (a b : String) : branchDesc a b ↔ b ≤ a :=
  localeCompare_le_iff b a

instance : DecidableRel branchDesc := fun a b =>
  inferInstanceAs (Decidable (localeCompare b a ≤ 0))

instance : IsTotal String branchDesc :=
  ⟨fun a b => by rw [branchDesc_iff, branchDesc_iff]; exact le_total b a⟩

instance : IsTrans String branchDesc :=
  ⟨fun a b c hab hbc => by
    rw [branchDesc_iff] at *
    exact le_trans hbc hab⟩

/-- Comparator of the thread sort (line 326): `(a, b) => (a.id ?? 0) - (b.id ?? 0)`. -/
def threadLe (a b : CommentThread) : Prop := a.id.getD 0 - b.id.getD 0 ≤ 0

instance : DecidableRel threadLe := fun a b =>
  inferInstanceAs (Decidable (a.id.getD 0 - b.id.getD 0 ≤ 0))

instance : IsTotal CommentThread threadLe :=
  ⟨fun a b => by unfold threadLe; omega⟩

instance : IsTrans CommentThread threadLe :=
  ⟨fun a b c hab hbc => by unfold threadLe at *; omega⟩

/-- Comparator of the comment sort (line 369): `(a, b) => (a.id ?? 0) - (b.id ?? 0)`. -/
def commentLe (a b : Comment) : Prop := a.id.getD 0 - b.id.getD 0 ≤ 0

instance : DecidableRel commentLe := fun a b =>
  inferInstanceAs (Decidable (a.id.getD 0 - b.id.getD 0 ≤ 0))

instance : IsTotal Comment commentLe :=
  ⟨fun a b => by unfold commentLe; omega⟩

instance : IsTrans Comment commentLe :=
  ⟨fun a b c hab hbc => by unfold commentLe at *; omega⟩

/-! ### Handler embeddings -/

/-- Source `branchesFilterOutIrrelevantProperties` (lines 42-49): keep the
names of the refs that have one, keep only those starting with
`refs/heads/`, strip the first occurrence of that prefix, sort descending
by `b.localeCompare(a)` and slice to the first `top`. -/
def branchesFilterOutIrrelevantProperties (branches : List GitRef) (top : Int) : List String :=
  jsSlice
    (List.insertionSort branchDesc
      (((branches.flatMap fun b => (b.name.map fun n => [n]).getD [])
        |>.filter fun n => jsStartsWith n "refs/heads/")
        |>.map fun n => jsReplaceFirst n "refs/heads/" ""))
    0 top

/-- Source `filterReposByName` (lines 89-94): case-insensitive
name-contains filter; a repository without a name never matches. -/
def filterReposByName (repositories : List GitRepository) (repoNameFilter : String) : List GitRepository :=
  repositories.filter fun r =>
    match r.name with
    | none => false
    | some n => jsIncludes n.toLower repoNameFilter.toLower

/-- Source `list_repos_by_project` handler (lines 109-131), from the point
where the backend repository collection is available: optional name filter,
the line-116 sort `filteredRepositories?.sort((a, b) => a.name?.localeCompare(b.name ?? "") ?? 0)`,
`slice(skip, skip + top)`, then projection.  Because that comparator is not
consistent when a missing name meets a nonempty one, the sort is modelled
by an arbitrary `sortImpl` assumed to satisfy the ECMAScript contract
`IsJsStableSortFor repoCompare` (see the preamble). -/
def listReposByProject (sortImpl : List GitRepository → List GitRepository)
    (repositories : List GitRepository) (top skip : Int)
    (repoNameFilter : Option String) : List TrimmedRepository :=
  let filtered :=
    if jsTruthyStr repoNameFilter then filterReposByName repositories (repoNameFilter.getD "")
    else repositories
  (localPage (sortImpl filtered) skip top).map trimOneRepository

/-- Output of the `list_pull_request_threads` handler: the full backend
threads (when `fullResponse` is set) or the trimmed projection. -/
inductive ThreadsOutput where
  | full : List CommentThread → ThreadsOutput
  | trimmed : List TrimmedThread → ThreadsOutput
deriving DecidableEq

/-- Source `list_pull_request_threads` handler (lines 320-347), from the
point where the backend thread collection is available: sort by id
ascending (missing id as 0), `slice(skip, skip + top)`, then either pass
the threads through (`fullResponse`) or trim them. -/
def listPullRequestThreads (threads : List CommentThread) (top skip : Int)
    (fullResponse : Bool) : ThreadsOutput :=
  let paginated := localPage (List.insertionSort threadLe threads) skip top
  if fullResponse then .full paginated
  else .trimmed (paginated.map trimOneThread)

/-- Output of the `list_pull_request_thread_comments` handler. -/
inductive CommentsOutput where
  | full : List Comment → CommentsOutput
  | trimmed : List TrimmedComment → CommentsOutput
deriving DecidableEq

/-- Source `list_pull_request_thread_comments` handler (lines 362-383),
from the point where the backend comment collection is available: sort by
id ascending (missing id as 0), `slice(skip, skip + top)`, then either
pass the comments through (`fullResponse`) or trim them. -/
def listPullRequestThreadComments (comments : List Comment) (top skip : Int)
    (fullResponse : Bool) : CommentsOutput :=
  let paginated := localPage (List.insertionSort commentLe comments) skip top
  if fullResponse then .full paginated
  else .trimmed (trimComments paginated)

/-- Source `get_repo_by_name_or_id` handler (lines 435-449): find a
repository whose name or id equals the argument; when none matches the
handler throws (`throw new Error(...)`) — there is no try/catch around it. -/
def getRepoByNameOrId (repositories : List GitRepository)
    (project repositoryNameOrId : String) : ToolOutcome GitRepository :=
  match repositories.find? fun r =>
      r.name == some repositoryNameOrId || r.id == some repositoryNameOrId with
  | some repo => .success repo
  | none => .thrown ("Repository " ++ repositoryNameOrId ++ " not found in project " ++ project)

/-- Source `get_branch_by_name` handler (lines 459-478): find a ref named
`refs/heads/<branchName>` or `<branchName>`; when none matches the handler
returns an error-flagged response envelope. -/
def getBranchByName (branches : List GitRef) (repositoryId branchName : String) :
    ToolOutcome GitRef :=
  match branches.find? fun b =>
      b.name == some ("refs/heads/" ++ branchName) || b.name == some branchName with
  | some b => .success b
  | none => .errorEnvelope ("Branch " ++ branchName ++ " not found in repository " ++ repositoryId)

/-! ### Pull-request search criteria (lines 135-305) -/

/-- Source `pullRequestStatusStringToInt` (lines 72-87); the enum values
are those of the backend `PullRequestStatus` (NotSet 0, Active 1,
Abandoned 2, Completed 3, All 4).  An unknown status throws. -/
def pullRequestStatusStringToInt (status : String) : Except String Int :=
  match status with
  | "Abandoned" => .ok 2
  | "Active" => .ok 1
  | "All" => .ok 4
  | "Completed" => .ok 3
  | "NotSet" => .ok 0
  | _ => .error ("Unknown pull request status: " ++ status)

/-- Search criteria built by the `list_pull_requests_by_repo` handler. -/
structure PrSearchCriteria where
  status : Int
  repositoryId : String
  creatorId : Option String
  reviewerId : Option String
deriving DecidableEq

/-- Search criteria built by the `list_pull_requests_by_project` handler. -/
structure ProjectPrSearchCriteria where
  status : Int
  creatorId : Option String
  reviewerId : Option String
deriving DecidableEq

/-- Criteria-building step of the `list_pull_requests_by_repo` handler
(lines 150-189).  `resolveEmail` stands for `getUserIdFromEmail` (it may
fail) and `callerId` for `getCurrentUserDetails(...).authenticatedUser.id`.
A `getUserIdFromEmail` failure is caught and turned into an error
envelope; an unknown status throws out of the handler. -/
def buildRepoPrSearchCriteria (resolveEmail : String → Except String String)
    (callerId repositoryId : String) (status : String)
    (created_by_me : Bool) (created_by_user : Option String) (i_am_reviewer : Bool) :
    ToolOutcome PrSearchCriteria :=
  match pullRequestStatusStringToInt status with
  | .error msg => .thrown msg
  | .ok st =>
    let base : PrSearchCriteria :=
      { status := st, repositoryId := repositoryId, creatorId := none, reviewerId := none }
    let elseIfBranch : ToolOutcome PrSearchCriteria :=
      if created_by_me || i_am_reviewer then
        .success
          { base with
            creatorId := if created_by_me then some callerId else none
            reviewerId := if i_am_reviewer then some callerId else none }
      else .success base
    match created_by_user with
    | some u =>
      if u = "" then elseIfBranch
      else
        match resolveEmail u with
        | .ok userId => .success { base with creatorId := some userId }
        | .error msg =>
          .errorEnvelope ("Error finding user with email " ++ u ++ ": " ++ msg)
    | none => elseIfBranch

/-- Criteria-building step of the `list_pull_requests_by_project` handler
(lines 237-274); identical to the repo variant except that the criteria
carry no repository id. -/
def buildProjectPrSearchCriteria (resolveEmail : String → Except String String)
    (callerId : String) (status : String)
    (created_by_me : Bool) (created_by_user : Option String) (i_am_reviewer : Bool) :
    ToolOutcome ProjectPrSearchCriteria :=
  match pullRequestStatusStringToInt status with
  | .error msg => .thrown msg
  | .ok st =>
    let base : ProjectPrSearchCriteria := { status := st, creatorId := none, reviewerId := none }
    let elseIfBranch : ToolOutcome ProjectPrSearchCriteria :=
      if created_by_me || i_am_reviewer then
        .success
          { base with
            creatorId := if created_by_me then some callerId else none
            reviewerId := if i_am_reviewer then some callerId else none }
      else .success base
    match created_by_user with
    | some u =>
      if u = "" then elseIfBranch
      else
        match resolveEmail u with
        | .ok userId => .success { base with creatorId := some userId }
        | .error msg =>
          .errorEnvelope ("Error finding user with email " ++ u ++ ": " ++ msg)
    | none => elseIfBranch

/-! ### Commit search (lines 502-566) -/

/-- Backend `GitVersionType` enum. -/
inductive GitVersionType where
  | Branch
  | Tag
  | Commit
deriving DecidableEq

/-- Lookup `GitVersionType[versionType]` on a string key (an unrecognized
key yields `undefined`, i.e. `none`). -/
def gitVersionTypeLookup : String → Option GitVersionType
  | "Branch" => some .Branch
  | "Tag" => some .Tag
  | "Commit" => some .Commit
  | _ => none

/-- Backend `GitVersionDescriptor`. -/
structure GitVersionDescriptor where
  version : String
  versionType : Option GitVersionType
deriving DecidableEq

/-- Backend `GitQueryCommitsCriteria`, restricted to the fields the
`search_commits` handler sets. -/
structure GitQueryCommitsCriteria where
  fromCommitId : Option String
  toCommitId : Option String
  includeLinks : Bool
  includeWorkItems : Bool
  itemVersion : Option GitVersionDescriptor
deriving DecidableEq

/-- Criteria-building step of the `search_commits` handler (lines
528-541): the base criteria always carry from/to commit and the two
include flags; `itemVersion` is attached only when `version` is truthy. -/
def buildCommitSearchCriteria (fromCommit toCommit version : Option String)
    (versionType : String) (includeLinks includeWorkItems : Bool) :
    GitQueryCommitsCriteria :=
  let base : GitQueryCommitsCriteria :=
    { fromCommitId := fromCommit, toCommitId := toCommit
      includeLinks := includeLinks, includeWorkItems := includeWorkItems
      itemVersion := none }
  if jsTruthyStr version then
    { base with
      itemVersion := some { version := version.getD "", versionType := gitVersionTypeLookup versionType } }
  else base

/-- Source `search_commits` handler (lines 523-565): build the criteria,
fetch, and convert any thrown error into an error envelope (the whole
body is wrapped in try/catch).  `fetchCommits` stands for
`gitApi.getCommits` applied to the built criteria; its successful payload
is left abstract as a string. -/
def searchCommits (fetchCommits : GitQueryCommitsCriteria → Except String String)
    (fromCommit toCommit version : Option String) (versionType : String)
    (includeLinks includeWorkItems : Bool) : ToolOutcome String :=
  match fetchCommits
      (buildCommitSearchCriteria fromCommit toCommit version versionType
        includeLinks includeWorkItems) with
  | .ok payload => .success payload
  | .error msg => .errorEnvelope ("Error searching commits: " ++ msg)

/-! ### Comment creation (lines 616-717) -/

/-- Thread-status mapping of the `create_pull_request_comment` handler
(lines 672-674): two irregular cases, otherwise capitalize the first
letter. -/
def mappedThreadStatus (status : String) : String :=
  if status = "byDesign" then "ByDesign"
  else if status = "wontFix" then "WontFix"
  else jsCapitalize status

/-- Lookup `CommentThreadStatus[token]` on a string key; the numeric
values are those of the backend enum (Unknown 0, Active 1, Fixed 2,
WontFix 3, Closed 4, ByDesign 5, Pending 6). -/
def commentThreadStatusLookup : String → Option Int
  | "Unknown" => some 0
  | "Active" => some 1
  | "Fixed" => some 2
  | "WontFix" => some 3
  | "Closed" => some 4
  | "ByDesign" => some 5
  | "Pending" => some 6
  | _ => none

/-- New comment payload (`content` plus `CommentType.Text`, whose enum value is 1). -/
structure NewComment where
  content : String
  commentType : Int
deriving DecidableEq

/-- Thread payload built by the new-thread branch of
`create_pull_request_comment`. -/
structure NewCommentThread where
  comments : List NewComment
  status : Option Int
  threadContext : Option CommentThreadContext
deriving DecidableEq

/-- JavaScript `lineEnd || lineStart` (the left operand wins when truthy). -/
def jsOrInt (a b : Option Int) : Int :=
  if jsTruthyInt a then a.getD 0 else b.getD 0

/-- Thread construction of the new-thread branch of
`create_pull_request_comment` (lines 667-684): one initial text comment,
the mapped status, and a file context only when `filePath && lineStart`
is truthy — set on the right (new file) side of the diff, the end line
defaulting to the start line. -/
def buildThreadData (content status : String) (filePath : Option String)
    (lineStart lineEnd : Option Int) : NewCommentThread :=
  let base : NewCommentThread :=
    { comments := [{ content := content, commentType := 1 }]
      status := commentThreadStatusLookup (mappedThreadStatus status)
      threadContext := none }
  if jsTruthyStr filePath && jsTruthyInt lineStart then
    { base with
      threadContext := some
        { filePath := filePath.getD ""
          leftFileStart := none
          leftFileEnd := none
          rightFileStart := some { line := lineStart.getD 0, offset := 1 }
          rightFileEnd := some { line := jsOrInt lineEnd lineStart, offset := 1 } } }
  else base

/-! ### Supporting lemmas -/

theorem jsSlice_sublist (l : List α) (s e : Int) : (jsSlice l s e).Sublist l := by
  unfold jsSlice
  exact List.Sublist.trans (List.take_sublist _ _) (List.drop_sublist _ _)

theorem localPage_sublist (l : List α) (skip top : Int) : (localPage l skip top).Sublist l :=
  jsSlice_sublist l skip (skip + top)

theorem mem_of_mem_localPage {l : List α} {a : α} {skip top : Int}
    (h : a ∈ localPage l skip top) : a ∈ l :=
  (localPage_sublist l skip top).mem h

theorem replaceFirstAux_of_isPrefixOf {pat s : List Char} (h : pat.isPrefixOf s = true) :
    replaceFirstAux pat [] s = s.drop pat.length := by
  cases s with
  | nil =>
    cases pat with
    | nil => simp [replaceFirstAux]
    | cons p ps => simp [List.isPrefixOf] at h
  | cons c cs =>
    unfold replaceFirstAux
    rw [if_pos h]
    simp

theorem append_jsReplaceFirst {m p : String} (h : jsStartsWith m p = true) :
    p ++ jsReplaceFirst m p "" = m := by
  unfold jsStartsWith at h
  obtain ⟨rest, hrest⟩ := List.isPrefixOf_iff_prefix.mp h
  apply String.ext
  show p.data ++ (jsReplaceFirst m p "").data = m.data
  unfold jsReplaceFirst
  show p.data ++ replaceFirstAux p.data ([] : List Char) m.data = m.data
  rw [replaceFirstAux_of_isPrefixOf h, ← hrest, List.drop_left]

/-! ### Claim theorems -/

/-- Claim C6: the thread-status mapping of `create_pull_request_comment`
sends `"byDesign"` to `ByDesign` and `"wontFix"` to `WontFix` (the two
irregular cases), and maps every other accepted input (`"active"`,
`"closed"`, `"fixed"`, `"pending"`, `"unknown"`) by capitalizing its first
letter. -/
theorem c6_thread_status_mapping :
    mappedThreadStatus "byDesign" = "ByDesign" ∧
    mappedThreadStatus "wontFix" = "WontFix" ∧
    mappedThreadStatus "active" = "Active" ∧
    mappedThreadStatus "closed" = "Closed" ∧
    mappedThreadStatus "fixed" = "Fixed" ∧
    mappedThreadStatus "pending" = "Pending" ∧
    mappedThreadStatus "unknown" = "Unknown" ∧
    mappedThreadStatus "active" = jsCapitalize "active" ∧
    mappedThreadStatus "closed" = jsCapitalize "closed" ∧
    mappedThreadStatus "fixed" = jsCapitalize "fixed" ∧
    mappedThreadStatus "pending" = jsCapitalize "pending" ∧
    mappedThreadStatus "unknown" = jsCapitalize "unknown" := by
  decide

/-- Claim C10: the commit search criteria carry an `itemVersion`
descriptor exactly when the `version` parameter is supplied (truthy, as
the source tests `if (version)`); when `version` is absent the
`versionType` parameter has no effect on the criteria, which then consist
of exactly `fromCommit`, `toCommit`, `includeLinks` and
`includeWorkItems`. -/
theorem c10_search_commits_criteria :
    ∀ (fromCommit toCommit version : Option String) (versionType : String)
      (includeLinks includeWorkItems : Bool),
      ((buildCommitSearchCriteria fromCommit toCommit version versionType
          includeLinks includeWorkItems).itemVersion.isSome = jsTruthyStr version) ∧
      (∀ versionType',
        buildCommitSearchCriteria fromCommit toCommit none versionType
            includeLinks includeWorkItems =
          buildCommitSearchCriteria fromCommit toCommit none versionType'
            includeLinks includeWorkItems) ∧
      (buildCommitSearchCriteria fromCommit toCommit none versionType
          includeLinks includeWorkItems =
        { fromCommitId := fromCommit, toCommitId := toCommit
          includeLinks := includeLinks, includeWorkItems := includeWorkItems
          itemVersion := none }) := by
  intro fc tc v vt il iw
  refine ⟨?_, ?_, ?_⟩
  · by_cases h : jsTruthyStr v = true
    · simp [buildCommitSearchCriteria, h]
    · simp only [Bool.not_eq_true] at h
      simp [buildCommitSearchCriteria, h]
  · intro vt'
    simp [buildCommitSearchCriteria, jsTruthyStr]
  · simp [buildCommitSearchCriteria, jsTruthyStr]

/-- Claim C4: when both `created_by_user` and `created_by_me` are
supplied to either pull-request listing handler, the creator filter of the
built criteria is the identity resolved from the explicit
`created_by_user` identifier (for every caller identity, so never the
caller's), and the combination raises no error. -/
theorem c4_created_by_user_precedence :
    ∀ (resolveEmail : String → Except String String)
      (callerId repositoryId status : String) (st : Int)
      (u userId : String) (i_am_reviewer : Bool),
      u ≠ "" →
      pullRequestStatusStringToInt status = .ok st →
      resolveEmail u = .ok userId →
      buildRepoPrSearchCriteria resolveEmail callerId repositoryId status
          true (some u) i_am_reviewer =
        .success { status := st, repositoryId := repositoryId
                   creatorId := some userId, reviewerId := none } ∧
      buildProjectPrSearchCriteria resolveEmail callerId status
          true (some u) i_am_reviewer =
        .success { status := st, creatorId := some userId, reviewerId := none } := by
  intro resolveEmail callerId repositoryId status st u userId rev hu hst hres
  constructor
  · simp [buildRepoPrSearchCriteria, hst, hu, hres]
  · simp [buildProjectPrSearchCriteria, hst, hu, hres]

/-- Witness for C4 at concrete inputs. -/
theorem c4_created_by_user_precedence_witness :
    buildRepoPrSearchCriteria (fun _ => .ok "uid-a") "caller-id" "R" "Active"
        true (some "a@x.com") false =
      .success { status := 1, repositoryId := "R"
                 creatorId := some "uid-a", reviewerId := none } ∧
    buildProjectPrSearchCriteria (fun _ => .ok "uid-a") "caller-id" "Active"
        true (some "a@x.com") false =
      .success { status := 1, creatorId := some "uid-a", reviewerId := none } :=
  c4_created_by_user_precedence (fun _ => .ok "uid-a") "caller-id" "R" "Active" 1
    "a@x.com" "uid-a" false (by decide) rfl rfl

/-- Counterexample to claim C3: with `created_by_user = "a@x.com"` and
`i_am_reviewer = true`, the built criteria carry no reviewer field at all
(`reviewerId = none`), because the reviewer branch is an `else if` behind
the explicit-user branch — contradicting the claim that the criteria
contain a caller-resolved reviewer id whenever `i_am_reviewer` is true,
regardless of the creator filters. -/
theorem c3_reviewer_flag_counterexample :
    buildRepoPrSearchCriteria (fun _ => .ok "uid-a") "caller-id" "R" "Active"
        false (some "a@x.com") true =
      .success { status := 1, repositoryId := "R"
                 creatorId := some "uid-a", reviewerId := none } := by
  decide

/-- Claim C3 as amended: when `i_am_reviewer` is true and
`created_by_user` is not supplied, the built criteria of both listing
handlers contain a reviewer id resolved to the caller's identity,
independently of `created_by_me` (which, when true, additionally yields a
distinct creator field holding the same caller id); when
`created_by_user` is supplied, the reviewer flag is ignored and no
reviewer field is set. -/
theorem c3_reviewer_flag :
    ∀ (resolveEmail : String → Except String String)
      (callerId repositoryId status : String) (st : Int)
      (created_by_me : Bool) (created_by_user : Option String),
      pullRequestStatusStringToInt status = .ok st →
      (jsTruthyStr created_by_user = false →
        buildRepoPrSearchCriteria resolveEmail callerId repositoryId status
            created_by_me created_by_user true =
          .success { status := st, repositoryId := repositoryId
                     creatorId := if created_by_me then some callerId else none
                     reviewerId := some callerId } ∧
        buildProjectPrSearchCriteria resolveEmail callerId status
            created_by_me created_by_user true =
          .success { status := st
                     creatorId := if created_by_me then some callerId else none
                     reviewerId := some callerId }) ∧
      (∀ u userId, u ≠ "" → resolveEmail u = .ok userId →
        buildRepoPrSearchCriteria resolveEmail callerId repositoryId status
            created_by_me (some u) true =
          .success { status := st, repositoryId := repositoryId
                     creatorId := some userId, reviewerId := none }) := by
  intro resolveEmail callerId repositoryId status st created_by_me created_by_user hst
  constructor
  · intro hcu
    cases created_by_user with
    | none =>
      constructor
      · simp [buildRepoPrSearchCriteria, hst]
      · simp [buildProjectPrSearchCriteria, hst]
    | some u =>
      have hu : u = "" := by
        by_contra h
        simp [jsTruthyStr, h] at hcu
      subst hu
      constructor
      · simp [buildRepoPrSearchCriteria, hst]
      · simp [buildProjectPrSearchCriteria, hst]
  · intro u userId hu hres
    simp [buildRepoPrSearchCriteria, hst, hu, hres]

/-- Witness for C3 as amended: with no explicit user and both flags set,
both criteria carry the caller id in two distinct fields. -/
theorem c3_reviewer_flag_witness :
    buildRepoPrSearchCriteria (fun _ => .ok "uid-a") "caller-id" "R" "Active"
        true none true =
      .success { status := 1, repositoryId := "R"
                 creatorId := some "caller-id", reviewerId := some "caller-id" } ∧
    buildProjectPrSearchCriteria (fun _ => .ok "uid-a") "caller-id" "Active"
        true none true =
      .success { status := 1
                 creatorId := some "caller-id", reviewerId := some "caller-id" } := by
  have h := (c3_reviewer_flag (fun _ => .ok "uid-a") "caller-id" "R" "Active" 1
    true none rfl).1 (by decide)
  simpa using h

/-- Counterexample to claim C2: with an empty backend repository
collection, the `get_repo_by_name_or_id` handler throws its
entity-not-found error out of the handler (there is no try/catch around
it) instead of returning an error-flagged response envelope. -/
theorem c2_failure_boundary_counterexample :
    getRepoByNameOrId [] "proj" "repoX" =
      .thrown "Repository repoX not found in project proj" := by
  decide

/-- Claim C2 as amended: error-to-envelope conversion happens only where
a handler catches the error itself.  `get_branch_by_name` converts its
not-found condition into an error envelope, the pull-request listing
handlers convert identity-resolution failures for `created_by_user` into
an error envelope, and the try/catch-wrapped `search_commits` handler
converts any backend-fetch failure into an error envelope; but
`get_repo_by_name_or_id` throws its not-found error out of the handler. -/
theorem c2_failure_boundary :
    (∀ (branches : List GitRef) (repositoryId branchName : String),
      branches.find? (fun b =>
          b.name == some ("refs/heads/" ++ branchName) || b.name == some branchName) = none →
      getBranchByName branches repositoryId branchName =
        .errorEnvelope ("Branch " ++ branchName ++ " not found in repository " ++ repositoryId)) ∧
    (∀ (resolveEmail : String → Except String String)
        (callerId repositoryId status : String) (st : Int)
        (u msg : String) (created_by_me i_am_reviewer : Bool),
      u ≠ "" →
      pullRequestStatusStringToInt status = .ok st →
      resolveEmail u = .error msg →
      buildRepoPrSearchCriteria resolveEmail callerId repositoryId status
          created_by_me (some u) i_am_reviewer =
        .errorEnvelope ("Error finding user with email " ++ u ++ ": " ++ msg)) ∧
    (∀ (fetchCommits : GitQueryCommitsCriteria → Except String String)
        (fromCommit toCommit version : Option String) (versionType : String)
        (includeLinks includeWorkItems : Bool) (msg : String),
      fetchCommits (buildCommitSearchCriteria fromCommit toCommit version versionType
          includeLinks includeWorkItems) = .error msg →
      searchCommits fetchCommits fromCommit toCommit version versionType
          includeLinks includeWorkItems =
        .errorEnvelope ("Error searching commits: " ++ msg)) ∧
    (∀ (repositories : List GitRepository) (project repositoryNameOrId : String),
      repositories.find? (fun r =>
          r.name == some repositoryNameOrId || r.id == some repositoryNameOrId) = none →
      getRepoByNameOrId repositories project repositoryNameOrId =
        .thrown ("Repository " ++ repositoryNameOrId ++ " not found in project " ++ project)) := by
  refine ⟨?_, ?_, ?_, ?_⟩
  · intro branches repositoryId branchName h
    unfold getBranchByName
    rw [h]
  · intro resolveEmail callerId repositoryId status st u msg cbm rev hu hst hres
    simp [buildRepoPrSearchCriteria, hst, hu, hres]
  · intro fetchCommits fc tc v vt il iw msg h
    unfold searchCommits
    rw [h]
  · intro repositories project repositoryNameOrId h
    unfold getRepoByNameOrId
    rw [h]

/-- Witness for C2 as amended, at concrete inputs for all four parts. -/
theorem c2_failure_boundary_witness :
    getBranchByName [] "R" "main" =
      .errorEnvelope "Branch main not found in repository R" ∧
    buildRepoPrSearchCriteria (fun _ => .error "boom") "caller-id" "R" "Active"
        false (some "a@x.com") false =
      .errorEnvelope "Error finding user with email a@x.com: boom" ∧
    searchCommits (fun _ => .error "net down") none none none "Branch" false false =
      .errorEnvelope "Error searching commits: net down" ∧
    getRepoByNameOrId [] "proj" "repoY" =
      .thrown "Repository repoY not found in project proj" := by
  refine ⟨?_, ?_, ?_, ?_⟩
  · have h := c2_failure_boundary.1 [] "R" "main" rfl
    simpa using h
  · exact c2_failure_boundary.2.1 (fun _ => .error "boom") "caller-id" "R" "Active" 1
      "a@x.com" "boom" false false (by decide) rfl rfl
  · exact c2_failure_boundary.2.2.1 (fun _ => .error "net down") none none none "Branch"
      false false "net down" rfl
  · exact c2_failure_boundary.2.2.2 [] "proj" "repoY" rfl

/-- Counterexample to claim C7: a new thread created with
`filePath = "a.ts"`, `lineStart = 10` and no `lineEnd` carries a context
whose span is set only on the right (new file) diff side — both left-side
fields are `none`, contradicting the claim that the context spans the
given lines on both diff sides. -/
theorem c7_file_context_counterexample :
    (buildThreadData "hi" "active" (some "a.ts") (some 10) none).threadContext =
      some { filePath := "a.ts", leftFileStart := none, leftFileEnd := none
             rightFileStart := some { line := 10, offset := 1 }
             rightFileEnd := some { line := 10, offset := 1 } } := by
  decide

/-- Claim C7 as amended: a newly created thread carries file/line context
exactly when both `filePath` and `lineStart` are supplied (truthy, per the
source's `if (filePath && lineStart)`); with `lineEnd` omitted the end
line equals `lineStart`; the context spans the given lines on the right
(new file) diff side only, the left side staying unset; and a `filePath`
without `lineStart` produces a context-less (general) thread, not an
error. -/
theorem c7_file_context :
    ∀ (content status : String) (filePath : Option String) (lineStart lineEnd : Option Int),
      ((buildThreadData content status filePath lineStart lineEnd).threadContext.isSome =
        (jsTruthyStr filePath && jsTruthyInt lineStart)) ∧
      (jsTruthyStr filePath = true → jsTruthyInt lineStart = true →
        (buildThreadData content status filePath lineStart none).threadContext =
          some { filePath := filePath.getD "", leftFileStart := none, leftFileEnd := none
                 rightFileStart := some { line := lineStart.getD 0, offset := 1 }
                 rightFileEnd := some { line := lineStart.getD 0, offset := 1 } }) ∧
      (jsTruthyInt lineStart = false →
        (buildThreadData content status filePath lineStart lineEnd).threadContext = none) := by
  intro content status filePath lineStart lineEnd
  refine ⟨?_, ?_, ?_⟩
  · by_cases h : (jsTruthyStr filePath && jsTruthyInt lineStart) = true
    · simp [buildThreadData, h]
    · simp only [Bool.not_eq_true] at h
      simp [buildThreadData, h]
  · intro h1 h2
    simp [buildThreadData, h1, h2, jsOrInt, show jsTruthyInt none = false from rfl]
  · intro h
    simp [buildThreadData, h]

/-- Witness for C7 as amended at concrete inputs. -/
theorem c7_file_context_witness :
    (buildThreadData "looks good" "pending" (some "b.ts") (some 7) none).threadContext =
      some { filePath := "b.ts", leftFileStart := none, leftFileEnd := none
             rightFileStart := some { line := 7, offset := 1 }
             rightFileEnd := some { line := 7, offset := 1 } } ∧
    (buildThreadData "looks good" "pending" (some "b.ts") none none).threadContext = none := by
  constructor
  · exact (c7_file_context "looks good" "pending" (some "b.ts") (some 7) none).2.1
      (by decide) (by decide)
  · exact (c7_file_context "looks good" "pending" (some "b.ts") none none).2.2
      (by decide)

/-- Counterexample to claim C9: local paging is not idempotent under
re-application with the same `skip`/`top` once `skip > 0`: slicing a
three-comment collection with `skip = 1`, `top = 2` yields the last two
comments, and re-applying the same slice to that result drops one more. -/
theorem c9_paging_counterexample :
    localPage
        (localPage ([⟨some 1, none, none, none, none, none, none⟩,
                     ⟨some 2, none, none, none, none, none, none⟩,
                     ⟨some 3, none, none, none, none, none, none⟩] : List Comment) 1 2) 1 2 ≠
      localPage ([⟨some 1, none, none, none, none, none, none⟩,
                  ⟨some 2, none, none, none, none, none, none⟩,
                  ⟨some 3, none, none, none, none, none, none⟩] : List Comment) 1 2 := by
  decide

/-- Claim C9 as amended: the local paging slice is `[skip, skip + top)`
(for nonnegative `skip`/`top`); a `skip` at or past the collection length
yields an empty sequence (never an error); `top = 0` yields an empty
sequence; and re-application with the same `top` is idempotent when
`skip = 0` (with a positive `skip` re-application slices further, as the
counterexample shows). -/
theorem c9_local_paging :
    ∀ (l : List Comment) (skip top : Int),
      (skip ≥ (l.length : Int) → localPage l skip top = []) ∧
      (top = 0 → localPage l skip top = []) ∧
      (0 ≤ skip → 0 ≤ top →
        localPage l skip top = (l.drop skip.toNat).take top.toNat) ∧
      (0 ≤ top → localPage (localPage l 0 top) 0 top = localPage l 0 top) := by
  intro l skip top
  have key : ∀ (l' : List Comment) (sk tp : Int), 0 ≤ sk → 0 ≤ tp →
      localPage l' sk tp = (l'.drop sk.toNat).take tp.toNat := by
    intro l' sk tp hsk htp
    unfold localPage jsSlice jsSliceIndex
    rw [if_neg (by omega), if_neg (by omega)]
    rcases le_or_lt sk.toNat l'.length with hle | hlt
    · rw [min_eq_left hle]
      rw [List.take_eq_take]
      simp only [List.length_drop]
      omega
    · rw [min_eq_right (le_of_lt hlt), List.drop_length]
      rw [List.drop_eq_nil_of_le (by omega)]
      simp
  refine ⟨?_, ?_, key l skip top, ?_⟩
  · intro h
    have hs : jsSliceIndex l.length skip = l.length := by
      unfold jsSliceIndex
      rw [if_neg (by omega)]
      omega
    unfold localPage jsSlice
    rw [hs, List.drop_length]
    simp
  · intro h
    subst h
    unfold localPage jsSlice
    simp
  · intro htop
    rw [key (localPage l 0 top) 0 top le_rfl htop, key l 0 top le_rfl htop]
    simp [List.take_take]

/-- Witness for C9 as amended at concrete inputs: out-of-range skip,
zero top, the explicit `[skip, skip + top)` slice, and idempotence at
`skip = 0`. -/
theorem c9_local_paging_witness :
    localPage ([⟨some 1, none, none, none, none, none, none⟩,
                ⟨some 2, none, none, none, none, none, none⟩] : List Comment) 5 3 = [] ∧
    localPage ([⟨some 1, none, none, none, none, none, none⟩,
                ⟨some 2, none, none, none, none, none, none⟩] : List Comment) 1 0 = [] ∧
    localPage ([⟨some 1, none, none, none, none, none, none⟩,
                ⟨some 2, none, none, none, none, none, none⟩] : List Comment) 1 2 =
      (([⟨some 1, none, none, none, none, none, none⟩,
         ⟨some 2, none, none, none, none, none, none⟩] : List Comment).drop
          (Int.toNat 1)).take (Int.toNat 2) ∧
    localPage
        (localPage ([⟨some 1, none, none, none, none, none, none⟩,
                     ⟨some 2, none, none, none, none, none, none⟩] : List Comment) 0 1) 0 1 =
      localPage ([⟨some 1, none, none, none, none, none, none⟩,
                  ⟨some 2, none, none, none, none, none, none⟩] : List Comment) 0 1 :=
  ⟨(c9_local_paging _ 5 3).1 (by decide),
   (c9_local_paging _ 1 0).2.1 rfl,
   (c9_local_paging _ 1 2).2.2.1 (by decide) (by decide),
   (c9_local_paging _ 0 1).2.2.2 (by decide)⟩

/-- Counterexample to claim C1: a collection containing a deleted comment
(`isDeleted = some true`) passes through both full-response handlers
unfiltered — the deleted comment appears verbatim in the
`fullResponse = true` output of `list_pull_request_thread_comments` and of
`list_pull_request_threads`, contradicting the claim that a deleted
comment never appears in the full-response projection. -/
theorem c1_deleted_comments_counterexample :
    listPullRequestThreadComments
        [{ id := some 5, author := none, content := some "gone", publishedDate := none
           lastUpdatedDate := none, lastContentUpdatedDate := none, isDeleted := some true }]
        100 0 true =
      .full [{ id := some 5, author := none, content := some "gone", publishedDate := none
               lastUpdatedDate := none, lastContentUpdatedDate := none
               isDeleted := some true }] ∧
    listPullRequestThreads
        [{ id := some 1, publishedDate := none, lastUpdatedDate := none, status := none
           threadContext := none
           comments := [{ id := some 5, author := none, content := some "gone"
                          publishedDate := none, lastUpdatedDate := none
                          lastContentUpdatedDate := none, isDeleted := some true }] }]
        100 0 true =
      .full [{ id := some 1, publishedDate := none, lastUpdatedDate := none, status := none
               threadContext := none
               comments := [{ id := some 5, author := none, content := some "gone"
                              publishedDate := none, lastUpdatedDate := none
                              lastContentUpdatedDate := none, isDeleted := some true }] }] := by
  constructor <;> decide

/-- Claim C1 as amended: a comment whose deletion flag is set never
appears in the minimal (trimmed) projection of
`list_pull_request_thread_comments` or `list_pull_request_threads` —
every comment record in a trimmed output comes from a source comment
whose deletion flag is not truthy; the full-response projection passes
comments through without this filtering (see the counterexample). -/
theorem c1_trimmed_excludes_deleted :
    (∀ (comments : List Comment) (top skip : Int) (out : List TrimmedComment),
      listPullRequestThreadComments comments top skip false = .trimmed out →
      ∀ r ∈ out, ∃ c, c ∈ comments ∧ jsTruthyBool c.isDeleted = false ∧ r = trimOneComment c) ∧
    (∀ (threads : List CommentThread) (top skip : Int) (out : List TrimmedThread),
      listPullRequestThreads threads top skip false = .trimmed out →
      ∀ t ∈ out, ∀ r ∈ t.comments,
        ∃ th c, th ∈ threads ∧ c ∈ th.comments ∧
          jsTruthyBool c.isDeleted = false ∧ r = trimOneComment c) := by
  have mem_trim : ∀ (l : List Comment) (r : TrimmedComment), r ∈ trimComments l →
      ∃ c, c ∈ l ∧ jsTruthyBool c.isDeleted = false ∧ r = trimOneComment c := by
    intro l r hr
    unfold trimComments at hr
    obtain ⟨c, hc, hrc⟩ := List.mem_map.mp hr
    obtain ⟨hcl, hflag⟩ := List.mem_filter.mp hc
    exact ⟨c, hcl, by simpa using hflag, hrc.symm⟩
  constructor
  · intro comments top skip out hout r hr
    unfold listPullRequestThreadComments at hout
    simp only [if_neg (Bool.false_ne_true)] at hout
    cases hout
    obtain ⟨c, hc, hflag, hrc⟩ := mem_trim _ r hr
    have hc' : c ∈ comments :=
      (List.mem_insertionSort commentLe).mp (mem_of_mem_localPage hc)
    exact ⟨c, hc', hflag, hrc⟩
  · intro threads top skip out hout t ht r hr
    unfold listPullRequestThreads at hout
    simp only [if_neg (Bool.false_ne_true)] at hout
    cases hout
    obtain ⟨th, hth, htt⟩ := List.mem_map.mp ht
    subst htt
    obtain ⟨c, hc, hflag, hrc⟩ := mem_trim _ r hr
    have hth' : th ∈ threads :=
      (List.mem_insertionSort threadLe).mp (mem_of_mem_localPage hth)
    exact ⟨th, c, hth', hc, hflag, hrc⟩

/-- Witness for C1 as amended: the trimmed projection of a two-comment
collection (one live, one deleted) keeps only the live comment, which
traces back to a non-deleted source comment. -/
theorem c1_trimmed_excludes_deleted_witness :
    listPullRequestThreadComments
        [{ id := some 4, author := none, content := some "kept", publishedDate := none
           lastUpdatedDate := none, lastContentUpdatedDate := none, isDeleted := none },
         { id := some 5, author := none, content := some "gone", publishedDate := none
           lastUpdatedDate := none, lastContentUpdatedDate := none, isDeleted := some true }]
        100 0 false =
      .trimmed [trimOneComment
        { id := some 4, author := none, content := some "kept", publishedDate := none
          lastUpdatedDate := none, lastContentUpdatedDate := none, isDeleted := none }] ∧
    ∃ c, c ∈ ([{ id := some 4, author := none, content := some "kept", publishedDate := none
                 lastUpdatedDate := none, lastContentUpdatedDate := none, isDeleted := none },
               { id := some 5, author := none, content := some "gone", publishedDate := none
                 lastUpdatedDate := none, lastContentUpdatedDate := none
                 isDeleted := some true }] : List Comment) ∧
      jsTruthyBool c.isDeleted = false ∧
      trimOneComment
          { id := some 4, author := none, content := some "kept", publishedDate := none
            lastUpdatedDate := none, lastContentUpdatedDate := none, isDeleted := none } =
        trimOneComment c :=
  ⟨by decide,
   c1_trimmed_excludes_deleted.1
     [{ id := some 4, author := none, content := some "kept", publishedDate := none
        lastUpdatedDate := none, lastContentUpdatedDate := none, isDeleted := none },
      { id := some 5, author := none, content := some "gone", publishedDate := none
        lastUpdatedDate := none, lastContentUpdatedDate := none, isDeleted := some true }]
     100 0
     [trimOneComment
       { id := some 4, author := none, content := some "kept", publishedDate := none
         lastUpdatedDate := none, lastContentUpdatedDate := none, isDeleted := none }]
     (by decide)
     (trimOneComment
       { id := some 4, author := none, content := some "kept", publishedDate := none
         lastUpdatedDate := none, lastContentUpdatedDate := none, isDeleted := none })
     (by decide)⟩

theorem length_jsSlice_zero_le (l : List α) (top : Int) (h : 0 ≤ top) :
    (jsSlice l 0 top).length ≤ top.toNat := by
  unfold jsSlice jsSliceIndex
  rw [if_neg (by omega : ¬ ((0 : Int) < 0)), if_neg (by omega : ¬ (top < 0))]
  simp only [List.length_take, List.length_drop]
  omega

/-- Claim C5: for every backend ref collection and every nonnegative
`top`, the branch projection returns only short names of input refs named
with the `refs/heads/` prefix (the prefix stripped), sorted descending,
with at most `top` names; and the spec's end-to-end example holds:
backend refs `refs/heads/main`, `refs/heads/dev`, `refs/heads/beta` with
`top = 2` yield `["main", "dev"]`. -/
theorem c5_branch_listing :
    ∀ (branches : List GitRef) (top : Int),
      0 ≤ top →
      (∀ n ∈ branchesFilterOutIrrelevantProperties branches top,
        ∃ r, r ∈ branches ∧ r.name = some ("refs/heads/" ++ n)) ∧
      List.Sorted (fun a b : String => b ≤ a)
        (branchesFilterOutIrrelevantProperties branches top) ∧
      (branchesFilterOutIrrelevantProperties branches top).length ≤ top.toNat ∧
      branchesFilterOutIrrelevantProperties
          [⟨some "refs/heads/main"⟩, ⟨some "refs/heads/dev"⟩, ⟨some "refs/heads/beta"⟩] 2 =
        ["main", "dev"] := by
  intro branches top htop
  refine ⟨?_, ?_, ?_, by decide⟩
  · intro n hn
    unfold branchesFilterOutIrrelevantProperties at hn
    have hn' := (List.mem_insertionSort branchDesc).mp ((jsSlice_sublist _ 0 top).mem hn)
    obtain ⟨m, hm, hmn⟩ := List.mem_map.mp hn'
    obtain ⟨hmem, hpre⟩ := List.mem_filter.mp hm
    obtain ⟨r, hr, hrm⟩ := List.mem_flatMap.mp hmem
    refine ⟨r, hr, ?_⟩
    cases hname : r.name with
    | none => rw [hname] at hrm; simp at hrm
    | some nm =>
      rw [hname] at hrm
      simp only [Option.map_some', Option.getD_some, List.mem_singleton] at hrm
      subst hrm
      rw [← hmn, append_jsReplaceFirst hpre]
  · unfold branchesFilterOutIrrelevantProperties
    have hs : List.Sorted branchDesc
        (List.insertionSort branchDesc
          (((branches.flatMap fun b => (b.name.map fun n => [n]).getD [])
            |>.filter fun n => jsStartsWith n "refs/heads/")
            |>.map fun n => jsReplaceFirst n "refs/heads/" "")) :=
      List.sorted_insertionSort branchDesc _
    exact ((hs.imp fun h => (branchDesc_iff _ _).mp h).sublist (jsSlice_sublist _ 0 top))
  · exact length_jsSlice_zero_le _ top htop

/-- Witness for C5 at the spec's own example inputs. -/
theorem c5_branch_listing_witness :
    (0 : Int) ≤ 2 ∧
    ((∀ n ∈ branchesFilterOutIrrelevantProperties
          [⟨some "refs/heads/main"⟩, ⟨some "refs/heads/dev"⟩, ⟨some "refs/heads/beta"⟩] 2,
        ∃ r, r ∈ ([⟨some "refs/heads/main"⟩, ⟨some "refs/heads/dev"⟩,
                   ⟨some "refs/heads/beta"⟩] : List GitRef) ∧
          r.name = some ("refs/heads/" ++ n)) ∧
      List.Sorted (fun a b : String => b ≤ a)
        (branchesFilterOutIrrelevantProperties
          [⟨some "refs/heads/main"⟩, ⟨some "refs/heads/dev"⟩, ⟨some "refs/heads/beta"⟩] 2) ∧
      (branchesFilterOutIrrelevantProperties
          [⟨some "refs/heads/main"⟩, ⟨some "refs/heads/dev"⟩,
           ⟨some "refs/heads/beta"⟩] 2).length ≤ (2 : Int).toNat ∧
      branchesFilterOutIrrelevantProperties
          [⟨some "refs/heads/main"⟩, ⟨some "refs/heads/dev"⟩, ⟨some "refs/heads/beta"⟩] 2 =
        ["main", "dev"]) :=
  ⟨by decide,
   c5_branch_listing
     [⟨some "refs/heads/main"⟩, ⟨some "refs/heads/dev"⟩, ⟨some "refs/heads/beta"⟩] 2
     (by decide)⟩

theorem filter_orderedInsert (r : α → α → Prop) [DecidableRel r] (p : α → Bool)
    (hp : ∀ a b, p a = true → p b = true → r a b) (a : α) (l : List α) :
    (List.orderedInsert r a l).filter p =
      if p a then a :: l.filter p else l.filter p := by
  induction l with
  | nil => simp [List.orderedInsert, List.filter_cons]
  | cons b t ih =>
    unfold List.orderedInsert
    by_cases hrab : r a b
    · rw [if_pos hrab]
      simp [List.filter_cons]
    · rw [if_neg hrab]
      by_cases hpa : p a = true
      · by_cases hpb : p b = true
        · exact absurd (hp a b hpa hpb) hrab
        · simp [List.filter_cons, hpa, hpb, ih]
      · simp [List.filter_cons, hpa, ih]

theorem filter_insertionSort (r : α → α → Prop) [DecidableRel r] (p : α → Bool)
    (hp : ∀ a b, p a = true → p b = true → r a b) (l : List α) :
    (List.insertionSort r l).filter p = l.filter p := by
  induction l with
  | nil => rfl
  | cons a t ih =>
    unfold List.insertionSort
    rw [filter_orderedInsert r p hp a _, ih, List.filter_cons]

theorem consistentCompOn_of_named (l : List GitRepository)
    (hnamed : ∀ r ∈ l, r.name ≠ none) : consistentCompOn repoCompare l = true := by
  have key : ∀ a ∈ l, ∀ b ∈ l, repoCompare a b ≤ 0 ↔ repoNameKey a ≤ repoNameKey b :=
    fun a _ b _ => repoLe_iff_key a b
  unfold consistentCompOn
  simp only [Bool.and_eq_true, List.all_eq_true, beq_iff_eq, decide_eq_decide,
    Bool.or_eq_true, Bool.not_eq_true', decide_eq_true_eq, decide_eq_false_iff_not]
  refine ⟨?_, ?_⟩
  · intro a ha b hb
    obtain ⟨na, hna⟩ := Option.ne_none_iff_exists'.mp (hnamed a ha)
    obtain ⟨nb, hnb⟩ := Option.ne_none_iff_exists'.mp (hnamed b hb)
    have hcab : repoCompare a b = localeCompare na nb := by
      unfold repoCompare; rw [hna, hnb]; rfl
    have hcba : repoCompare b a = localeCompare nb na := by
      unfold repoCompare; rw [hna, hnb]; rfl
    rw [hcab, hcba]
    constructor
    · rw [localeCompare_eq_zero_iff, localeCompare_eq_zero_iff]
      exact ⟨Eq.symm, Eq.symm⟩
    · rw [localeCompare_lt_zero_iff, localeCompare_pos_iff]
  · intro a ha b hb c hc
    by_cases hab : repoCompare a b ≤ 0
    · by_cases hbc : repoCompare b c ≤ 0
      · refine Or.inr ?_
        rw [key a ha c hc]
        exact le_trans ((key a ha b hb).mp hab) ((key b hb c hc).mp hbc)
      · exact Or.inl (Or.inr hbc)
    · exact Or.inl (Or.inl hab)

theorem sortReposIfConsistent_spec : IsJsStableSortFor repoCompare sortReposIfConsistent := by
  intro l
  constructor
  · unfold sortReposIfConsistent
    split_ifs with h
    · exact List.perm_insertionSort repoLe l
    · exact List.Perm.refl l
  · intro hcons
    unfold sortReposIfConsistent
    rw [if_pos hcons]
    constructor
    · exact List.sorted_insertionSort repoLe l
    · intro p hp
      exact filter_insertionSort repoLe p (fun a b ha hb => le_of_eq (hp a b ha hb)) l

/-- Counterexample to claim C8: the line-116 comparator is not a
consistent comparison function once a missing-name repository meets a
nonempty-named one (it compares 0 one way and 1 the other), so ECMAScript
leaves the sort order implementation-defined — and under
`sortReposIfConsistent`, a compliant implementation (it satisfies the
full `IsJsStableSortFor` contract), a backend collection
`[{name: "beta"}, {name: undefined}]` is returned in its original order:
the missing-name repository does not sort first and the output is not
ordered by name, contradicting the claimed guarantee. -/
theorem c8_repo_sort_counterexample :
    IsJsStableSortFor repoCompare sortReposIfConsistent ∧
    repoCompare ⟨some "2", none, none, none, none, none, none⟩
        ⟨some "1", some "beta", none, none, none, none, none⟩ = 0 ∧
    repoCompare ⟨some "1", some "beta", none, none, none, none, none⟩
        ⟨some "2", none, none, none, none, none, none⟩ = 1 ∧
    listReposByProject sortReposIfConsistent
        [⟨some "1", some "beta", none, none, none, none, none⟩,
         ⟨some "2", none, none, none, none, none, none⟩] 100 0 none =
      [⟨some "1", some "beta", none, none, none, none, none⟩,
       ⟨some "2", none, none, none, none, none, none⟩] ∧
    ¬ List.Sorted (fun a b : TrimmedRepository => a.name.getD "" ≤ b.name.getD "")
        (listReposByProject sortReposIfConsistent
          [⟨some "1", some "beta", none, none, none, none, none⟩,
           ⟨some "2", none, none, none, none, none, none⟩] 100 0 none) := by
  refine ⟨sortReposIfConsistent_spec, by decide, by decide, by decide, ?_⟩
  intro h
  rw [show listReposByProject sortReposIfConsistent
        [⟨some "1", some "beta", none, none, none, none, none⟩,
         ⟨some "2", none, none, none, none, none, none⟩] 100 0 none =
      [⟨some "1", some "beta", none, none, none, none, none⟩,
       ⟨some "2", none, none, none, none, none, none⟩] from by decide] at h
  have hle : ("beta" : String) ≤ "" := by
    have h' := (List.pairwise_cons.mp h).1
      ⟨some "2", none, none, none, none, none, none⟩ (List.mem_singleton_self _)
    simpa using h'
  have hbeta : ("beta" : String) = "" := eq_empty_of_le_empty hle
  exact absurd hbeta (by decide)

/-- Claim C8 as amended: when every repository in the backend collection
has a name, the line-116 comparator is a consistent comparison function,
and then under every ECMAScript-compliant sort implementation the
repositories returned by `list_repos_by_project` are ordered by name in
ascending (modelled `localeCompare`) order and the sort stage is stable —
for every name key, the repositories with that key keep their original
relative order.  When a name is missing alongside a nonempty-named
repository the comparator is inconsistent and the order is
implementation-defined, so the original "missing names sort first" is not
guaranteed (see the counterexample). -/
theorem c8_repo_sort :
    ∀ (sortImpl : List GitRepository → List GitRepository),
      IsJsStableSortFor repoCompare sortImpl →
      ∀ (repositories : List GitRepository) (top skip : Int)
        (repoNameFilter : Option String) (k : String),
        (∀ r ∈ repositories, r.name ≠ none) →
        List.Sorted (fun a b : TrimmedRepository => a.name.getD "" ≤ b.name.getD "")
          (listReposByProject sortImpl repositories top skip repoNameFilter) ∧
        (sortImpl repositories).filter (fun r => repoNameKey r == k) =
          repositories.filter (fun r => repoNameKey r == k) := by
  intro sortImpl hsort repositories top skip fltr k hnamed
  have hnamedf : ∀ r ∈ (if jsTruthyStr fltr then filterReposByName repositories (fltr.getD "")
      else repositories), r.name ≠ none := by
    intro r hr
    apply hnamed
    by_cases ht : jsTruthyStr fltr = true
    · rw [if_pos ht] at hr
      exact (List.mem_filter.mp hr).1
    · rw [Bool.not_eq_true] at ht
      rw [ht] at hr
      simpa using hr
  obtain ⟨hperm, hcons⟩ := hsort (if jsTruthyStr fltr then
    filterReposByName repositories (fltr.getD "") else repositories)
  obtain ⟨hsorted, hstable⟩ := hcons (consistentCompOn_of_named _ hnamedf)
  constructor
  · show List.Sorted (fun a b : TrimmedRepository => a.name.getD "" ≤ b.name.getD "")
      ((localPage (sortImpl (if jsTruthyStr fltr then
        filterReposByName repositories (fltr.getD "") else repositories)) skip top).map
          trimOneRepository)
    apply List.pairwise_map.mpr
    have h2 := List.Pairwise.sublist (localPage_sublist _ skip top) hsorted
    exact h2.imp fun hab => (repoLe_iff_key _ _).mp hab
  · obtain ⟨hperm2, hcons2⟩ := hsort repositories
    obtain ⟨hs2, hstable2⟩ := hcons2 (consistentCompOn_of_named _ hnamed)
    apply hstable2
    intro a b ha hb
    have ha' : repoNameKey a = k := by simpa using ha
    have hb' : repoNameKey b = k := by simpa using hb
    unfold repoNameKey at ha' hb'
    unfold repoCompare
    cases hna : a.name with
    | none => rfl
    | some na =>
      rw [hna] at ha'
      simp only [Option.getD_some] at ha'
      rw [ha', hb']
      exact localeCompare_self k

/-- Witness for C8 as amended: with the compliant implementation
`sortReposIfConsistent` and an all-named collection, the output is sorted
by name ascending and the per-key filter is preserved. -/
theorem c8_repo_sort_witness :
    List.Sorted (fun a b : TrimmedRepository => a.name.getD "" ≤ b.name.getD "")
      (listReposByProject sortReposIfConsistent
        [⟨some "1", some "beta", none, none, none, none, none⟩,
         ⟨some "3", some "alpha", none, none, none, none, none⟩] 100 0 none) ∧
    (sortReposIfConsistent
        [⟨some "1", some "beta", none, none, none, none, none⟩,
         ⟨some "3", some "alpha", none, none, none, none, none⟩]).filter
        (fun r => repoNameKey r == "alpha") =
      ([⟨some "1", some "beta", none, none, none, none, none⟩,
        ⟨some "3", some "alpha", none, none, none, none, none⟩] :
          List GitRepository).filter (fun r => repoNameKey r == "alpha") :=
  c8_repo_sort sortReposIfConsistent sortReposIfConsistent_spec
    [⟨some "1", some "beta", none, none, none, none, none⟩,
     ⟨some "3", some "alpha", none, none, none, none, none⟩] 100 0 none "alpha"
    (by decide)

end AdoMcp
